import Mathlib

/-!
Verification of the turn-orchestration and tool-dispatch subsystem of the
voice-assistant repository (src/mx_server.py, src/tool_executor.py,
src/assistant_plan.py, src/camera/helpers.py, src/audio/recorder.py).

Each Python function relevant to the frozen claims is embedded as a pure
Lean function: stateful methods become explicit state-passing functions,
raised exceptions become Except error values, and external effects
(HTTP calls, audio devices) become explicit parameters or outcome records,
so that every theorem is about the translated code itself.
-/

set_option autoImplicit false

namespace Spec2Proof

/-! ### FrameCache (src/camera/helpers.py, class FrameCache)

The cache state is the pair of fields guarded by the lock in the Python
class: the latest encoded frame (or none) and its publish timestamp.
Wall-clock time is modelled as a rational passed explicitly. -/

structure FrameCacheState where
  latestFrame : Option (List Nat)
  latestTs : ℚ
deriving DecidableEq

/-- Embedding of FrameCache.get_latest_frame (src/camera/helpers.py lines
64-72): snapshot the frame and timestamp under the lock, return none when
no frame was ever published, none when a max age is given and the age
strictly exceeds it, and the frame otherwise. -/
def FrameCacheState.get_latest_frame (s : FrameCacheState) (now : ℚ)
    (maxAge : Option ℚ) : Option (List Nat) :=
  match s.latestFrame with
  | none => none
  | some frame =>
    match maxAge with
    | some m => if now - s.latestTs > m then none else some frame
    | none => some frame

/-! ### ContinuousRecorder and RecordingController
(src/audio/recorder.py lines 110-209, src/mx_server.py lines 467-498)

The recorder state collects the mutable fields of ContinuousRecorder:
the input stream handle, destination path, writer thread, data queue and
stop event. Fresh resources produced during start (temp file name, writer
thread, stream handle) and the success of opening the audio device are
passed as explicit parameters. -/

structure ContinuousRecorderState where
  stream : Option Nat
  destination : Option String
  writer : Option Nat
  dataQueue : Option (List Nat)
  stopEventSet : Bool
deriving DecidableEq

/-- Embedding of ContinuousRecorder.is_recording: true when the stream
field is non-null. -/
def ContinuousRecorderState.is_recording (s : ContinuousRecorderState) : Bool :=
  s.stream.isSome

/-- Embedding of ContinuousRecorder.start. Raising is modelled as an
Except error paired with the post-call state. When a recording is already
in progress the method raises before touching any field. When opening the
input stream fails, the cleanup of a failed start clears every field,
deletes the temp file and re-raises. -/
def ContinuousRecorderState.start (s : ContinuousRecorderState)
    (outputPath : Option String) (freshDest : String)
    (freshWriter freshStream : Nat) (deviceOk : Bool) :
    ContinuousRecorderState × Except String String :=
  if s.stream.isSome then
    (s, Except.error "Recording already in progress")
  else
    let dest := outputPath.getD freshDest
    if deviceOk then
      ({ stream := some freshStream, destination := some dest,
         writer := some freshWriter, dataQueue := some [],
         stopEventSet := false }, Except.ok dest)
    else
      ({ stream := none, destination := none, writer := none,
         dataQueue := none, stopEventSet := true },
       Except.error "Audio device unavailable")

/-- Embedding of ContinuousRecorder.stop: raises when the stream or the
destination is null, otherwise closes the stream, joins the writer, clears
every field and returns the destination path. -/
def ContinuousRecorderState.stop (s : ContinuousRecorderState) :
    ContinuousRecorderState × Except String String :=
  match s.stream, s.destination with
  | some _, some dest =>
      ({ stream := none, destination := none, writer := none,
         dataQueue := none, stopEventSet := true }, Except.ok dest)
  | _, _ => (s, Except.error "No recording in progress")

/-- State of the RecordingController wrapper (src/mx_server.py lines
467-498): the wrapped recorder plus the controller current path field. -/
structure RecordingControllerState where
  recorder : ContinuousRecorderState
  currentPath : Option String
deriving DecidableEq

/-- Embedding of RecordingController.start: under the lock, raise when
the recorder reports an active recording, otherwise delegate to the
recorder and record the returned path. An exception from the recorder
propagates and leaves the controller current path unassigned. -/
def RecordingControllerState.start (s : RecordingControllerState)
    (outputPath : Option String) (freshDest : String)
    (freshWriter freshStream : Nat) (deviceOk : Bool) :
    RecordingControllerState × Except String String :=
  if s.recorder.is_recording then
    (s, Except.error "Recording already in progress")
  else
    match s.recorder.start outputPath freshDest freshWriter freshStream deviceOk with
    | (r, Except.ok path) => ({ recorder := r, currentPath := some path }, Except.ok path)
    | (r, Except.error e) => ({ recorder := r, currentPath := s.currentPath }, Except.error e)

/-- Embedding of RecordingController.stop: raise when the recorder is not
recording or no current path is stored, otherwise delegate and clear the
current path. -/
def RecordingControllerState.stop (s : RecordingControllerState) :
    RecordingControllerState × Except String String :=
  if !s.recorder.is_recording || s.currentPath.isNone then
    (s, Except.error "No recording in progress")
  else
    match s.recorder.stop with
    | (r, Except.ok dest) => ({ recorder := r, currentPath := none }, Except.ok dest)
    | (r, Except.error e) => ({ recorder := r, currentPath := s.currentPath }, Except.error e)

/-! ### Conversation handling in a turn (src/mx_server.py, _process_recording)

The conversation is the ordered list of role-tagged entries. The part of
_process_recording (lines 394-432) that mutates the conversation is
embedded as a pure function of the log before the turn, the user content
built for this turn, the outcome of the planning call
(_request_assistant_plan, ok carrying plan.voice) and the outcome of the
fallback streaming call (_stream_assistant_text). The boolean result is
true when the turn ends with status ok. -/

inductive Role where
  | system
  | user
  | assistant
deriving DecidableEq

structure ConvEntry where
  role : Role
  content : String
deriving DecidableEq

/-- Embedding of the conversation mutations of _process_recording
(src/mx_server.py lines 394-432): append the user entry; if the planning
call succeeds, strip the voice line, pop the user entry when it is empty,
otherwise append the assistant entry; if the planning call raises, run the
fallback streaming call, pop the user entry when it raises or returns
empty text, otherwise keep the user entry and append the assistant entry
built from the streamed text. -/
def process_recording_conversation (conv : List ConvEntry) (userContent : String)
    (planOutcome : Except String String)
    (streamOutcome : Except String String) : List ConvEntry × Bool :=
  let conv1 := conv ++ [⟨Role.user, userContent⟩]
  match planOutcome with
  | Except.ok voice =>
      let assistantText := voice.trim
      if assistantText = "" then (conv1.dropLast, false)
      else (conv1 ++ [⟨Role.assistant, assistantText⟩], true)
  | Except.error _ =>
      match streamOutcome with
      | Except.error _ => (conv1.dropLast, false)
      | Except.ok txt =>
          if txt = "" then (conv1.dropLast, false)
          else (conv1 ++ [⟨Role.assistant, txt⟩], true)

/-! ### Segmentation tool call (src/tool_executor.py)

Python truthiness of an optional string (None and the empty string are
falsy) and the Python or-expression over such values. -/

def pyTruthyStr : Option String → Bool
  | none => false
  | some s => s ≠ ""

/-- Embedding of the Python expression a or b over optional strings, as in
img_path = call.input.get with image_path or screenshot_path
(src/tool_executor.py line 169). -/
def pyOrOpt (a b : Option String) : Option String :=
  if pyTruthyStr a then a else b

/-- Request body sent to the SAM endpoint by _run_segmentation. -/
structure SegPayload where
  prompt : String
  do_plot : Bool
  image_path : Option String
  base64_image : Option String
deriving DecidableEq

inductive SegResult where
  | errorResult (msg : String)
  | success (num_objects : Int) (overlay_path : String)
deriving DecidableEq

/-- Embedding of ToolExecutor._run_segmentation (src/tool_executor.py
lines 124-149). The net parameter models the HTTP POST to the endpoint,
already folded with the try-except that turns an exception into an error
result. The third component records the request actually performed: none
means no HTTP request was made. -/
def run_segmentation (prompt : String) (image_path base64_image : Option String)
    (net : SegPayload → SegResult) : (String × SegResult) × Option SegPayload :=
  if pyTruthyStr image_path then
    let payload : SegPayload := ⟨prompt, true, image_path, none⟩
    ((prompt, net payload), some payload)
  else if pyTruthyStr base64_image then
    let payload : SegPayload := ⟨prompt, true, none, base64_image⟩
    ((prompt, net payload), some payload)
  else
    ((prompt, SegResult.errorResult "No image provided"), none)

/-- Embedding of the segmentation branch of ToolExecutor._execute_plan
(src/tool_executor.py lines 167-171): read prompt with default empty
string, resolve the image path as the call field or-else the job
screenshot path, read the inline image, and run the segmentation task. -/
def dispatchSegmentationCall (inputPrompt inputImagePath inputBase64 : Option String)
    (screenshotPath : Option String) (net : SegPayload → SegResult) :
    (String × SegResult) × Option SegPayload :=
  run_segmentation (inputPrompt.getD "") (pyOrOpt inputImagePath screenshotPath)
    inputBase64 net

/-! ### ToolExecutor plan execution (src/tool_executor.py)

Tool identifiers are the closed Literal set of assistant_plan.ToolCall. -/

inductive ToolName where
  | segmentation
  | web_search
  | ifixit_tutorials
deriving DecidableEq

/-- Values stored in the aggregated result map: url strings and result
dictionaries (string-valued, which is all the aggregation inspects). -/
inductive PyVal where
  | str (s : String)
  | int (n : Int)
  | dict (kvs : List (String × String))
deriving DecidableEq

/-- A completed task result as seen by the aggregation loop: either a
Python list (web_search url list, ifixit guide list) or a non-list value
(the segmentation result dictionary). -/
inductive TaskData where
  | asList (xs : List PyVal)
  | asDict (kvs : List (String × String))
deriving DecidableEq

/-- First-match association lookup, the membership and indexing notion of
a Python dict restricted to string keys. -/
def lookupKey {α : Type} (k : String) : List (String × α) → Option α
  | [] => none
  | (k2, v) :: rest => if k2 = k then some v else lookupKey k rest

/-- Assignment to an existing dict key: the value at the key is replaced
in place, preserving insertion order. -/
def assocSet {α : Type} (l : List (String × α)) (k : String) (v : α) :
    List (String × α) :=
  l.map (fun p => if p.1 = k then (k, v) else p)

/-- Embedding of one step of the aggregation loop of
ToolExecutor._execute_plan (src/tool_executor.py lines 176-183): a
list-valued result is assigned to its key, a non-list result is appended
to the existing list at its key or starts a fresh singleton list. -/
def collectInsert (acc : List (String × List PyVal)) (key : String)
    (data : TaskData) : List (String × List PyVal) :=
  match data with
  | TaskData.asList xs =>
      match lookupKey key acc with
      | some _ => assocSet acc key xs
      | none => acc ++ [(key, xs)]
  | TaskData.asDict d =>
      match lookupKey key acc with
      | some l => assocSet acc key (l ++ [PyVal.dict d])
      | none => acc ++ [(key, [PyVal.dict d])]

/-- Aggregation of all gathered task results, in completion order. -/
def collectResults (results : List (String × TaskData)) :
    List (String × List PyVal) :=
  results.foldl (fun acc r => collectInsert acc r.1 r.2) []

/-! Event trace of one _execute_plan job (src/tool_executor.py lines
151-188). The submission loop runs on the event loop thread without any
await, so no created task starts before the loop finishes: the trace is
the per-call running callbacks, then the task completions in some order,
then the single finished callback. Callbacks fire only when a status
callback was supplied. -/

inductive ExecEvent where
  | running (tool : ToolName)
  | taskDone (idx : Nat)
  | finished
deriving DecidableEq

/-- Sequentialized event trace of ToolExecutor._execute_plan for a job
with the given tool calls: one running callback per call (in plan order,
fired before any task runs), the completions of the created tasks in an
arbitrary order, and the finished callback after the gather returns. -/
def execTrace (calls : List ToolName) (hasCb : Bool) (order : List Nat) :
    List ExecEvent :=
  (if hasCb then calls.map ExecEvent.running else [])
    ++ order.map ExecEvent.taskDone
    ++ (if hasCb then [ExecEvent.finished] else [])

/-! ### Web search task (src/tool_executor.py lines 60-113) -/

/-- Content of the chat message built by _run_web_search. -/
def webSearchRequestMessage (query : String) (maxItems : Int) : String :=
  "Find up to " ++ toString maxItems ++ " relevant links for: " ++ query ++
    ". Return concise bullet links."

/-- Embedding of ToolExecutor._run_web_search: initialize urls to the
empty list, perform the backend chat call inside try-except, but extract
nothing from the response (the extraction step is a commented-out pass),
and return the query paired with urls. -/
def run_web_search (query : String) (maxItems : Int)
    (backend : String → Except String Unit) : String × List String :=
  let urls : List String := []
  match backend (webSearchRequestMessage query maxItems) with
  | Except.ok _ => (query, urls)
  | Except.error _ => (query, urls)

/-! ### Server tool dispatch and Python call binding
(src/mx_server.py lines 176-203, src/tool_executor.py lines 190-192) -/

/-- Non-self parameters of ToolExecutor.submit, in order. -/
def submitParams : List String := ["plan", "screenshot_path", "status_callback"]

/-- Python call-binding semantics for a call with some positional
arguments followed by keyword arguments: binding raises a TypeError when
there are more positional arguments than parameters, when a keyword names
a parameter already bound positionally, or when a keyword names no
parameter. -/
def bindCall (params : List String) (numPositional : Nat)
    (keywords : List String) : Except String Unit :=
  if params.length < numPositional then
    Except.error "too many positional arguments"
  else if keywords.any (fun kw => (params.take numPositional).contains kw) then
    Except.error "got multiple values for argument"
  else if keywords.any (fun kw => !params.contains kw) then
    Except.error "unexpected keyword argument"
  else Except.ok ()

inductive DispatchOutcome where
  | noToolCalls
  | executorUnavailable
  | submitted
  | typeError (msg : String)
deriving DecidableEq

/-- Embedding of _dispatch_tool_plan (src/mx_server.py lines 176-203):
with no tool calls the tool state is reset and no submission is
attempted; with no executor the dispatch is skipped; otherwise the
submit call is attempted with three positional arguments (plan, the
screenshot path string, the screenshot base64) plus the status_callback
keyword, and its outcome is the outcome of binding those arguments
against the submit signature. -/
def dispatch_tool_plan (toolCalls : List ToolName) (executorPresent : Bool) :
    DispatchOutcome :=
  if toolCalls.isEmpty then DispatchOutcome.noToolCalls
  else if !executorPresent then DispatchOutcome.executorUnavailable
  else
    match bindCall submitParams 3 ["status_callback"] with
    | Except.ok _ => DispatchOutcome.submitted
    | Except.error e => DispatchOutcome.typeError e

/-! ### iFixit repair-guide lookup (src/tool_executor.py, _fetch_ifixit)

A catalog item as read from the decoded JSON payload: optional fields are
none when the key is missing. The image field is the optional standard
entry of the nested image dictionary. -/

structure IFixitItem where
  dataType : Option String
  title : Option String
  url : Option String
  difficulty : Option String
  image : Option (List (String × String))
  summary : Option String
deriving DecidableEq

structure Guide where
  title : String
  url : String
  difficulty : String
  image : String
  summary : String
deriving DecidableEq

/-- Construction of one guide entry from a catalog item, with the default
values used by _fetch_ifixit (src/tool_executor.py lines 34-42). -/
def mkGuide (item : IFixitItem) : Guide :=
  { title := item.title.getD "Unknown Guide"
    url := item.url.getD ""
    difficulty := item.difficulty.getD "Unknown"
    image := (lookupKey "standard" (item.image.getD [])).getD ""
    summary := item.summary.getD "No summary available" }

/-- The collection loop of _fetch_ifixit (src/tool_executor.py lines
30-44): skip items whose dataType is not guide, append the guide built
from the item, and break as soon as the accumulated list reaches the
limit. -/
def collectGuides (items : List IFixitItem) (limit : Int)
    (acc : List Guide) : List Guide :=
  match items with
  | [] => acc
  | item :: rest =>
    if item.dataType ≠ some "guide" then collectGuides rest limit acc
    else
      let acc2 := acc ++ [mkGuide item]
      if (acc2.length : Int) ≥ limit then acc2
      else collectGuides rest limit acc2

/-- Embedding of _fetch_ifixit (src/tool_executor.py lines 18-45). The
response parameter is the decoded results list of the catalog request, or
none when the request or the JSON decoding raised, in which case the
except branch returns the empty list. -/
def fetch_ifixit (response : Option (List IFixitItem)) (limit : Int) :
    List Guide :=
  match response with
  | none => []
  | some items => collectGuides items limit []

/-! ### ToolCall payload validation (src/assistant_plan.py)

The unified ToolInput schema with its seven optional fields, the three
per-tool schemas, and ToolCall.validate_input_payload. Dict values are a
small sum of the value shapes that occur in these schemas. -/

inductive FieldVal where
  | s (v : String)
  | i (v : Int)
  | strList (v : List String)
  | pyNone
deriving DecidableEq

structure ToolInputU where
  prompt : Option String := none
  image_path : Option String := none
  base64_image : Option String := none
  synonyms : Option (List String) := none
  query : Option String := none
  max_results : Option Int := none
  limit : Option Int := none
deriving DecidableEq

/-- ToolInput.model_dump with exclude_none: the dict of the non-none
fields of the unified input, in schema field order. -/
def unifiedDump (t : ToolInputU) : List (String × FieldVal) :=
  (match t.prompt with | some v => [("prompt", FieldVal.s v)] | none => [])
    ++ (match t.image_path with
        | some v => [("image_path", FieldVal.s v)] | none => [])
    ++ (match t.base64_image with
        | some v => [("base64_image", FieldVal.s v)] | none => [])
    ++ (match t.synonyms with
        | some v => [("synonyms", FieldVal.strList v)] | none => [])
    ++ (match t.query with | some v => [("query", FieldVal.s v)] | none => [])
    ++ (match t.max_results with
        | some v => [("max_results", FieldVal.i v)] | none => [])
    ++ (match t.limit with | some v => [("limit", FieldVal.i v)] | none => [])

/-- The Sam3Input schema: prompt required, the rest optional with default
None; extra keys of the payload are ignored (pydantic default). -/
structure Sam3Model where
  prompt : String
  image_path : Option String
  base64_image : Option String
  synonyms : Option (List String)
deriving DecidableEq

/-- Validation of an optional string field: missing gives the default
none, an explicit null is accepted, any other shape than a string is a
validation error. -/
def validateOptStr (payload : List (String × FieldVal)) (key : String) :
    Except String (Option String) :=
  match lookupKey key payload with
  | none => Except.ok none
  | some FieldVal.pyNone => Except.ok none
  | some (FieldVal.s v) => Except.ok (some v)
  | some _ => Except.error (key ++ ": Input should be a valid string")

/-- Embedding of Sam3Input.model_validate over a payload dict. -/
def sam3Validate (payload : List (String × FieldVal)) :
    Except String Sam3Model :=
  match lookupKey "prompt" payload with
  | some (FieldVal.s p) =>
    match validateOptStr payload "image_path" with
    | Except.error e => Except.error e
    | Except.ok ip =>
      match validateOptStr payload "base64_image" with
      | Except.error e => Except.error e
      | Except.ok b64 =>
        match lookupKey "synonyms" payload with
        | none => Except.ok ⟨p, ip, b64, none⟩
        | some FieldVal.pyNone => Except.ok ⟨p, ip, b64, none⟩
        | some (FieldVal.strList v) => Except.ok ⟨p, ip, b64, some v⟩
        | some _ => Except.error "synonyms: Input should be a valid list"
  | some _ => Except.error "prompt: Input should be a valid string"
  | none => Except.error "prompt: Field required"

/-- Sam3Input.model_dump: every schema field is emitted, optional fields
with value None included. -/
def sam3Dump (m : Sam3Model) : List (String × FieldVal) :=
  [("prompt", FieldVal.s m.prompt),
   ("image_path", (m.image_path.map FieldVal.s).getD FieldVal.pyNone),
   ("base64_image", (m.base64_image.map FieldVal.s).getD FieldVal.pyNone),
   ("synonyms", (m.synonyms.map FieldVal.strList).getD FieldVal.pyNone)]

/-- The WebSearchInput schema: query required, max_results an int with
default 5 constrained to 1..10. -/
structure WebSearchModel where
  query : String
  max_results : Int
deriving DecidableEq

/-- Embedding of WebSearchInput.model_validate over a payload dict. -/
def webSearchValidate (payload : List (String × FieldVal)) :
    Except String WebSearchModel :=
  match lookupKey "query" payload with
  | some (FieldVal.s q) =>
    match lookupKey "max_results" payload with
    | none => Except.ok ⟨q, 5⟩
    | some (FieldVal.i v) =>
        if 1 ≤ v ∧ v ≤ 10 then Except.ok ⟨q, v⟩
        else Except.error "max_results: Input should be in range 1 to 10"
    | some _ => Except.error "max_results: Input should be a valid integer"
  | some _ => Except.error "query: Input should be a valid string"
  | none => Except.error "query: Field required"

def webSearchDump (m : WebSearchModel) : List (String × FieldVal) :=
  [("query", FieldVal.s m.query), ("max_results", FieldVal.i m.max_results)]

/-- The IFixitInput schema: query required, limit an int with default 3
constrained to 1..10. -/
structure IFixitModel where
  query : String
  limit : Int
deriving DecidableEq

/-- Embedding of IFixitInput.model_validate over a payload dict. -/
def ifixitValidate (payload : List (String × FieldVal)) :
    Except String IFixitModel :=
  match lookupKey "query" payload with
  | some (FieldVal.s q) =>
    match lookupKey "limit" payload with
    | none => Except.ok ⟨q, 3⟩
    | some (FieldVal.i v) =>
        if 1 ≤ v ∧ v ≤ 10 then Except.ok ⟨q, v⟩
        else Except.error "limit: Input should be in range 1 to 10"
    | some _ => Except.error "limit: Input should be a valid integer"
  | some _ => Except.error "query: Input should be a valid string"
  | none => Except.error "query: Field required"

def ifixitDump (m : IFixitModel) : List (String × FieldVal) :=
  [("query", FieldVal.s m.query), ("limit", FieldVal.i m.limit)]

/-- Embedding of ToolCall.validate_input_payload (src/assistant_plan.py
lines 103-126): dump the unified input without the none fields, validate
it against the schema of the declared tool, and replace the input by the
dump of the validated model. -/
def validate_input_payload (tool : ToolName) (input : ToolInputU) :
    Except String (List (String × FieldVal)) :=
  let payload := unifiedDump input
  match tool with
  | ToolName.segmentation => (sam3Validate payload).map sam3Dump
  | ToolName.web_search => (webSearchValidate payload).map webSearchDump
  | ToolName.ifixit_tutorials => (ifixitValidate payload).map ifixitDump

/-- The field names of the per-tool schema. -/
def schemaFields : ToolName → List String
  | ToolName.segmentation => ["prompt", "image_path", "base64_image", "synonyms"]
  | ToolName.web_search => ["query", "max_results"]
  | ToolName.ifixit_tutorials => ["query", "limit"]

/-- The field names of the unified ToolInput schema. -/
def unifiedFields : List String :=
  ["prompt", "image_path", "base64_image", "synonyms", "query",
   "max_results", "limit"]

/-! ### Theorems for claims C6 and C4 -/

/-- C6: for every FrameCache state and every freshness bound X,
get_latest_frame with max age X returns none when no frame has been
published or when the frame age strictly exceeds X, and returns the cached
frame whenever its age is at most X; in particular a frame of age exactly
X is returned. -/
theorem frame_cache_freshness (s : FrameCacheState) (now X : ℚ) :
    (s.latestFrame = none → s.get_latest_frame now (some X) = none) ∧
    (now - s.latestTs > X → s.get_latest_frame now (some X) = none) ∧
    (∀ f, s.latestFrame = some f → now - s.latestTs ≤ X →
      s.get_latest_frame now (some X) = some f) := by
  refine ⟨fun h => ?_, fun h => ?_, fun f hf hle => ?_⟩
  · simp [FrameCacheState.get_latest_frame, h]
  · cases hframe : s.latestFrame with
    | none => simp [FrameCacheState.get_latest_frame, hframe]
    | some f => simp [FrameCacheState.get_latest_frame, hframe, h]
  · simp [FrameCacheState.get_latest_frame, hf, not_lt.mpr hle]

theorem frame_cache_freshness_witness :
    FrameCacheState.get_latest_frame ⟨some [1], 3⟩ 5 (some 2) = some [1] :=
  (frame_cache_freshness ⟨some [1], 3⟩ 5 2).2.2 [1] rfl (by norm_num)

/-- C4: in every controller state (hence after any sequence of start and
stop operations), start while a recording is active raises the recording
already in progress error and returns the state unchanged, and stop while
no recording is active raises the no recording in progress error and
returns the state unchanged. -/
theorem recording_controller_exclusivity (s : RecordingControllerState)
    (outputPath : Option String) (freshDest : String)
    (freshWriter freshStream : Nat) (deviceOk : Bool) :
    (s.recorder.is_recording = true →
      s.start outputPath freshDest freshWriter freshStream deviceOk =
        (s, Except.error "Recording already in progress")) ∧
    (s.recorder.is_recording = false →
      s.stop = (s, Except.error "No recording in progress")) := by
  constructor
  · intro h
    simp [RecordingControllerState.start, h]
  · intro h
    simp [RecordingControllerState.stop, h]

theorem recording_controller_exclusivity_witness :
    RecordingControllerState.stop
        ⟨⟨none, none, none, none, false⟩, none⟩ =
      (⟨⟨none, none, none, none, false⟩, none⟩,
        Except.error "No recording in progress") :=
  (recording_controller_exclusivity ⟨⟨none, none, none, none, false⟩, none⟩
    none "tmp.wav" 0 0 true).2 rfl

/-- C1 counterexample: the claim that a planning-call exception always
leaves the conversation log unchanged is false. With an empty prior log,
a planning outcome that raises, and a fallback streaming call returning
the non-empty text hello, the log after the turn has two entries (user
and assistant), not zero: the user entry is not rolled back. -/
theorem planning_failure_rollback_cex :
    (process_recording_conversation [] "u" (Except.error "boom")
        (Except.ok "hello")).1.length ≠ ([] : List ConvEntry).length := by
  decide

/-- C1 amended: when the planning call raises, the conversation log is
restored exactly to its pre-turn state whenever the fallback streaming
call also raises or returns empty text; when the fallback returns
non-empty text the turn completes with the user entry kept and one
assistant entry appended. -/
theorem planning_failure_rollback (conv : List ConvEntry) (u e : String) :
    (∀ e2, process_recording_conversation conv u (Except.error e)
        (Except.error e2) = (conv, false)) ∧
    process_recording_conversation conv u (Except.error e)
        (Except.ok "") = (conv, false) ∧
    (∀ txt, txt ≠ "" → process_recording_conversation conv u (Except.error e)
        (Except.ok txt) =
      (conv ++ [⟨Role.user, u⟩, ⟨Role.assistant, txt⟩], true)) := by
  refine ⟨fun e2 => ?_, ?_, fun txt htxt => ?_⟩
  · simp [process_recording_conversation]
  · simp [process_recording_conversation]
  · simp [process_recording_conversation, htxt]

theorem planning_failure_rollback_witness :
    process_recording_conversation [] "u" (Except.error "boom")
        (Except.ok "hello") =
      ([⟨Role.user, "u"⟩, ⟨Role.assistant, "hello"⟩], true) :=
  (planning_failure_rollback [] "u" "boom").2.2 "hello" (by decide)

/-- C3: a segmentation tool call whose validated input has no image path
and no inline base64 image, in a job whose context supplies no screenshot
path fallback, always yields the error result No image provided under its
prompt key, and no HTTP request to the segmentation endpoint is made (the
recorded request is none), whatever the network behaviour would have
been. -/
theorem segmentation_no_image (inputPrompt : Option String)
    (net : SegPayload → SegResult) :
    dispatchSegmentationCall inputPrompt none none none net =
      ((inputPrompt.getD "", SegResult.errorResult "No image provided"), none) := by
  simp [dispatchSegmentationCall, run_segmentation, pyOrOpt, pyTruthyStr]

/-! ### Helper lemmas about association lists -/

theorem assocSet_cons {α : Type} (k2 : String) (w : α)
    (rest : List (String × α)) (k : String) (v : α) :
    assocSet ((k2, w) :: rest) k v =
      (if k2 = k then (k, v) else (k2, w)) :: assocSet rest k v := by
  by_cases hk : k2 = k <;> simp [assocSet, hk]

theorem lookupKey_assocSet_of_some {α : Type} (l : List (String × α))
    (k : String) (v0 v : α) (h : lookupKey k l = some v0) :
    lookupKey k (assocSet l k v) = some v := by
  induction l with
  | nil => simp [lookupKey] at h
  | cons p rest ih =>
    obtain ⟨k2, w⟩ := p
    rw [assocSet_cons]
    by_cases hk : k2 = k
    · rw [if_pos hk]
      simp [lookupKey]
    · rw [if_neg hk]
      simp only [lookupKey, if_neg hk] at h ⊢
      exact ih h

theorem lookupKey_append_singleton_of_none {α : Type} (l : List (String × α))
    (k : String) (v : α) (h : lookupKey k l = none) :
    lookupKey k (l ++ [(k, v)]) = some v := by
  induction l with
  | nil => simp [lookupKey]
  | cons p rest ih =>
    obtain ⟨k2, w⟩ := p
    by_cases hk : k2 = k
    · simp [lookupKey, hk] at h
    · simp only [lookupKey, if_neg hk] at h
      simpa [lookupKey, hk] using ih h

/-- C2 counterexample: two tool calls resolving to the same result key q,
both producing list results, do not append: the aggregate holds only the
later list and the earlier result a is gone from the value stored under
q. -/
theorem tool_result_aggregation_cex :
    lookupKey "q" (collectResults
        [("q", TaskData.asList [PyVal.str "a"]),
         ("q", TaskData.asList [PyVal.str "b"])]) = some [PyVal.str "b"] ∧
    PyVal.str "a" ∉ [PyVal.str "b"] := by
  decide

/-- C2 amended: in the aggregated result map, a non-list (dictionary)
result whose key is already present is appended to the existing list at
that key, while a list result is assigned to its key and replaces
whatever value, if any, was stored there before. -/
theorem tool_result_aggregation (acc : List (String × List PyVal))
    (k : String) (d : List (String × String)) (xs l : List PyVal) :
    (lookupKey k acc = some l →
      lookupKey k (collectInsert acc k (TaskData.asDict d)) =
        some (l ++ [PyVal.dict d])) ∧
    lookupKey k (collectInsert acc k (TaskData.asList xs)) = some xs := by
  constructor
  · intro h
    rw [collectInsert, h]
    exact lookupKey_assocSet_of_some acc k l _ h
  · cases hl : lookupKey k acc with
    | some v =>
        rw [collectInsert, hl]
        exact lookupKey_assocSet_of_some acc k v xs hl
    | none =>
        rw [collectInsert, hl]
        exact lookupKey_append_singleton_of_none acc k xs hl

theorem tool_result_aggregation_witness :
    lookupKey "q" (collectInsert [("q", [PyVal.str "x"])] "q"
        (TaskData.asDict [("error", "boom")])) =
      some [PyVal.str "x", PyVal.dict [("error", "boom")]] :=
  (tool_result_aggregation [("q", [PyVal.str "x"])] "q" [("error", "boom")]
    [] [PyVal.str "x"]).1 (by decide)

/-- C5: for every job trace of _execute_plan (any tool call list, any
status-callback presence, any completion order of the created tasks), the
finished callback fires at most once; every running callback fires
strictly before the finished callback; the finished callback fires only
after every one of the N tasks has completed; and with zero tool calls no
running callback is emitted at all. -/
theorem executor_callback_order (calls : List ToolName) (hasCb : Bool)
    (order : List Nat) (hperm : order.Perm (List.range calls.length)) :
    (execTrace calls hasCb order).count ExecEvent.finished ≤ 1 ∧
    (∀ (i j : Nat) (t : ToolName),
      (execTrace calls hasCb order)[i]? = some (ExecEvent.running t) →
      (execTrace calls hasCb order)[j]? = some ExecEvent.finished → i < j) ∧
    (∀ j : Nat, (execTrace calls hasCb order)[j]? = some ExecEvent.finished →
      ∀ k : Nat, k < calls.length → ∃ i : Nat, i < j ∧
        (execTrace calls hasCb order)[i]? = some (ExecEvent.taskDone k)) ∧
    (calls = [] → ∀ t, ExecEvent.running t ∉ execTrace calls hasCb order) := by
  have htrace : execTrace calls hasCb order =
      ((if hasCb then calls.map ExecEvent.running else [])
        ++ order.map ExecEvent.taskDone)
      ++ (if hasCb then [ExecEvent.finished] else []) := by
    simp [execTrace]
  have hRrun : ∀ x ∈ (if hasCb then calls.map ExecEvent.running else []),
      ∃ t, x = ExecEvent.running t := by
    intro x hx
    cases hasCb with
    | false => simp at hx
    | true =>
        rw [if_pos rfl, List.mem_map] at hx
        obtain ⟨t, _, rfl⟩ := hx
        exact ⟨t, rfl⟩
  have hDdone : ∀ x ∈ order.map ExecEvent.taskDone,
      ∃ p, x = ExecEvent.taskDone p := by
    intro x hx
    rw [List.mem_map] at hx
    obtain ⟨p, _, rfl⟩ := hx
    exact ⟨p, rfl⟩
  have hfin_pos : ∀ j, (execTrace calls hasCb order)[j]? =
      some ExecEvent.finished →
      ((if hasCb then calls.map ExecEvent.running else [])
        ++ order.map ExecEvent.taskDone).length ≤ j := by
    intro j hj
    by_contra hlt
    push_neg at hlt
    rw [htrace, List.getElem?_append_left hlt] at hj
    have hmem := List.getElem?_mem hj
    rcases List.mem_append.mp hmem with hmem | hmem
    · obtain ⟨t, ht⟩ := hRrun _ hmem
      simp at ht
    · obtain ⟨p, hp⟩ := hDdone _ hmem
      simp at hp
  refine ⟨?_, ?_, ?_, ?_⟩
  · rw [htrace, List.count_append, List.count_append]
    have h1 : (if hasCb then calls.map ExecEvent.running else []).count
        ExecEvent.finished = 0 := by
      refine List.count_eq_zero.mpr (fun hmem => ?_)
      obtain ⟨t, ht⟩ := hRrun _ hmem
      simp at ht
    have h2 : (order.map ExecEvent.taskDone).count ExecEvent.finished = 0 := by
      refine List.count_eq_zero.mpr (fun hmem => ?_)
      obtain ⟨p, hp⟩ := hDdone _ hmem
      simp at hp
    have h3 : (if hasCb then [ExecEvent.finished] else []).count
        ExecEvent.finished ≤ 1 := by
      cases hasCb <;> simp
    omega
  · intro i j t hi hj
    have hiR : i < (if hasCb then calls.map ExecEvent.running else []).length := by
      by_contra hge
      push_neg at hge
      rw [htrace, List.append_assoc, List.getElem?_append_right hge] at hi
      have hmem := List.getElem?_mem hi
      rcases List.mem_append.mp hmem with hmem | hmem
      · obtain ⟨p, hp⟩ := hDdone _ hmem
        simp at hp
      · cases hasCb with
        | false => simp at hmem
        | true =>
            simp only [if_pos rfl, List.mem_singleton] at hmem
            simp at hmem
    have hjge := hfin_pos j hj
    have : (if hasCb then calls.map ExecEvent.running else []).length ≤
        ((if hasCb then calls.map ExecEvent.running else [])
          ++ order.map ExecEvent.taskDone).length := by
      simp
    omega
  · intro j hj k hk
    have hjge := hfin_pos j hj
    have hkmem : k ∈ order := hperm.mem_iff.mpr (List.mem_range.mpr hk)
    obtain ⟨p, hp, hpk⟩ := List.mem_iff_getElem.mp hkmem
    refine ⟨(if hasCb then calls.map ExecEvent.running else []).length + p,
      ?_, ?_⟩
    · have : p < (order.map ExecEvent.taskDone).length := by
        simpa using hp
      simp only [List.length_append] at hjge
      omega
    · have hlen : (if hasCb then calls.map ExecEvent.running else []).length + p <
          ((if hasCb then calls.map ExecEvent.running else [])
            ++ order.map ExecEvent.taskDone).length := by
        simp only [List.length_append, List.length_map]
        omega
      rw [htrace, List.getElem?_append_left hlen,
        List.getElem?_append_right (Nat.le_add_right _ _)]
      have hpq : order[p]? = some k := by
        rw [List.getElem?_eq_getElem hp, hpk]
      simp [List.getElem?_map, hpq]
  · intro hcalls t hmem
    subst hcalls
    have horder : order = [] := by
      have h0 : order.Perm [] := by simpa using hperm
      exact List.perm_nil.mp h0
    subst horder
    cases hasCb <;> simp [execTrace] at hmem

theorem executor_callback_order_witness :
    (execTrace [ToolName.web_search] true [0]).count ExecEvent.finished ≤ 1 :=
  (executor_callback_order [ToolName.web_search] true [0] (by decide)).1

/-- C10: for every query, every max-items bound and every backend
behaviour (success or failure of the chat call), _run_web_search returns
the query paired with the empty url list: the result-extraction step is
absent from the code. -/
theorem web_search_returns_empty (q : String) (n : Int)
    (backend : String → Except String Unit) :
    run_web_search q n backend = (q, []) := by
  unfold run_web_search
  cases backend (webSearchRequestMessage q n) <;> rfl

/-- C9: for every plan with at least one tool call, the dispatch path of
the server attempts the submit call with three positional arguments plus
a status_callback keyword; binding that call against the submit signature
(plan, screenshot_path, status_callback) raises a TypeError because
status_callback receives both the third positional argument and the
keyword argument, so the dispatch never reaches the submitted outcome and
no job is handed to the background loop. -/
theorem dispatch_submit_type_error (calls : List ToolName) (h : calls ≠ []) :
    dispatch_tool_plan calls true =
      DispatchOutcome.typeError "got multiple values for argument" ∧
    (∀ ep : Bool, dispatch_tool_plan calls ep ≠ DispatchOutcome.submitted) := by
  have hne : calls.isEmpty = false := by
    cases calls with
    | nil => exact absurd rfl h
    | cons a l => rfl
  constructor
  · simp only [dispatch_tool_plan, hne, Bool.false_eq_true, if_false,
      Bool.not_true]
    rfl
  · intro ep
    cases ep <;>
      simp only [dispatch_tool_plan, hne, Bool.false_eq_true, if_false,
        Bool.not_true, Bool.not_false, if_true] <;>
      decide

theorem dispatch_submit_type_error_witness :
    dispatch_tool_plan [ToolName.web_search] true =
      DispatchOutcome.typeError "got multiple values for argument" :=
  (dispatch_submit_type_error [ToolName.web_search] (by decide)).1

/-! ### Helper lemmas for the iFixit collection loop -/

theorem collectGuides_length_le (items : List IFixitItem) (limit : Int)
    (acc : List Guide) (h : (acc.length : Int) < limit) :
    ((collectGuides items limit acc).length : Int) ≤ limit := by
  induction items generalizing acc with
  | nil => simp only [collectGuides]; exact le_of_lt h
  | cons item rest ih =>
    simp only [collectGuides]
    split_ifs with h1 h2
    · exact ih acc h
    · simp only [List.length_append, List.length_singleton]
      push_cast
      omega
    · refine ih _ ?_
      exact not_le.mp h2

theorem collectGuides_length_le_nonpos (items : List IFixitItem) (limit : Int)
    (acc : List Guide) (h : limit ≤ 0) :
    (collectGuides items limit acc).length ≤ acc.length + 1 := by
  induction items generalizing acc with
  | nil => simp only [collectGuides]; omega
  | cons item rest ih =>
    simp only [collectGuides]
    split_ifs with h1 h2
    · exact ih acc
    · simp
    · exfalso
      refine h2 (le_trans h ?_)
      exact_mod_cast Nat.zero_le _

theorem collectGuides_mem (items : List IFixitItem) (limit : Int)
    (acc : List Guide) (g : Guide) (hg : g ∈ collectGuides items limit acc) :
    g ∈ acc ∨ ∃ item ∈ items, item.dataType = some "guide" ∧ g = mkGuide item := by
  induction items generalizing acc with
  | nil =>
    simp only [collectGuides] at hg
    exact Or.inl hg
  | cons item rest ih =>
    simp only [collectGuides] at hg
    split_ifs at hg with h1 h2
    · rcases ih acc hg with h | ⟨it, hit, hdt, heq⟩
      · exact Or.inl h
      · exact Or.inr ⟨it, List.mem_cons_of_mem _ hit, hdt, heq⟩
    · rcases List.mem_append.mp hg with h | h
      · exact Or.inl h
      · exact Or.inr ⟨item, List.mem_cons_self _ _, not_not.mp h1, by simpa using h⟩
    · rcases ih _ hg with h | ⟨it, hit, hdt, heq⟩
      · rcases List.mem_append.mp h with h3 | h3
        · exact Or.inl h3
        · exact Or.inr ⟨item, List.mem_cons_self _ _, not_not.mp h1, by simpa using h3⟩
      · exact Or.inr ⟨it, List.mem_cons_of_mem _ hit, hdt, heq⟩

/-- C7 counterexample: with limit 0 and a payload containing one guide
item, _fetch_ifixit returns one entry, so the returned list does not
contain at most limit entries (the code appends before checking the
bound). -/
theorem ifixit_limit_cex :
    ¬ (((fetch_ifixit
          (some [⟨some "guide", none, none, none, none, none⟩]) 0).length : Int)
        ≤ 0) := by
  decide

/-- C7 amended: for every query response and every limit L, the
repair-guide lookup returns at most max 1 L entries (at most L whenever
L is at least 1), every returned entry is built from a catalog item whose
document type is guide, and a failed request or decode yields the empty
list. -/
theorem ifixit_guides (resp : Option (List IFixitItem)) (L : Int) :
    ((fetch_ifixit resp L).length : Int) ≤ max 1 L ∧
    (∀ g ∈ fetch_ifixit resp L, ∃ item ∈ resp.getD [],
      item.dataType = some "guide" ∧ g = mkGuide item) ∧
    fetch_ifixit none L = [] := by
  refine ⟨?_, ?_, rfl⟩
  · cases resp with
    | none => simp [fetch_ifixit]
    | some items =>
      by_cases hL : 1 ≤ L
      · have hlen := collectGuides_length_le items L []
          (by simpa using lt_of_lt_of_le Int.zero_lt_one hL)
        exact le_trans hlen (le_max_right 1 L)
      · have hlen := collectGuides_length_le_nonpos items L [] (by omega)
        have : ((collectGuides items L []).length : Int) ≤ 1 := by
          exact_mod_cast hlen
        exact le_trans this (le_max_left 1 L)
  · intro g hg
    cases resp with
    | none => simp [fetch_ifixit] at hg
    | some items =>
      rcases collectGuides_mem items L [] g hg with h | h
      · simp at h
      · simpa using h

theorem ifixit_guides_witness :
    ((fetch_ifixit
        (some [⟨some "guide", none, none, none, none, none⟩]) 3).length : Int)
      ≤ max 1 3 :=
  (ifixit_guides (some [⟨some "guide", none, none, none, none, none⟩]) 3).1

/-! ### Helper lemma for payload key lookup -/

theorem lookupKey_eq_none_of_not_mem_keys {α : Type} (l : List (String × α))
    (f : String) (h : f ∉ l.map Prod.fst) : lookupKey f l = none := by
  induction l with
  | nil => rfl
  | cons p rest ih =>
    obtain ⟨k2, v⟩ := p
    simp only [List.map_cons, List.mem_cons] at h
    push_neg at h
    simp only [lookupKey]
    rw [if_neg (fun hh => h.1 hh.symm)]
    exact ih h.2

/-- C8: whenever validate_input_payload succeeds, the keys of the
validated payload are exactly the fields of the schema of the declared
tool, in schema order, and every field outside that schema (in particular
every unified-input field irrelevant to the tool) is absent from the
payload. -/
theorem validated_payload_fields (tool : ToolName) (input : ToolInputU)
    (out : List (String × FieldVal))
    (h : validate_input_payload tool input = Except.ok out) :
    out.map Prod.fst = schemaFields tool ∧
    ∀ f, f ∉ schemaFields tool → lookupKey f out = none := by
  have hkeys : out.map Prod.fst = schemaFields tool := by
    cases tool with
    | segmentation =>
      simp only [validate_input_payload] at h
      cases hv : sam3Validate (unifiedDump input) with
      | error e => rw [hv] at h; exact absurd h (by simp [Except.map])
      | ok m =>
        rw [hv] at h
        simp only [Except.map, Except.ok.injEq] at h
        subst h
        rfl
    | web_search =>
      simp only [validate_input_payload] at h
      cases hv : webSearchValidate (unifiedDump input) with
      | error e => rw [hv] at h; exact absurd h (by simp [Except.map])
      | ok m =>
        rw [hv] at h
        simp only [Except.map, Except.ok.injEq] at h
        subst h
        rfl
    | ifixit_tutorials =>
      simp only [validate_input_payload] at h
      cases hv : ifixitValidate (unifiedDump input) with
      | error e => rw [hv] at h; exact absurd h (by simp [Except.map])
      | ok m =>
        rw [hv] at h
        simp only [Except.map, Except.ok.injEq] at h
        subst h
        rfl
  refine ⟨hkeys, fun f hf => ?_⟩
  refine lookupKey_eq_none_of_not_mem_keys out f ?_
  rw [hkeys]
  exact hf

theorem validated_payload_fields_witness :
    [("query", FieldVal.s "x"), ("max_results", FieldVal.i 5)].map Prod.fst =
      schemaFields ToolName.web_search :=
  (validated_payload_fields ToolName.web_search
    ⟨none, none, none, none, some "x", none, none⟩
    [("query", FieldVal.s "x"), ("max_results", FieldVal.i 5)]
    rfl).1

end Spec2Proof
